import Mathlib

/-!
Shallow embedding of the XRD core of the Qutility repository
(`src/xrd/scattering.rs`, `src/xrd/calculator.rs`,
`src/commands/analyze/xrd.rs::apply_broadening`,
`src/models/structure.rs`), over real numbers, together with
theorems settling the specification claims about it.
-/

namespace Qutility

/-- A 3-component real vector, standing for Rust `[f64; 3]`. -/
structure Vec3 where
  x : ℝ
  y : ℝ
  z : ℝ

/-- Vector cross product, from `calculator.rs::cross`. -/
def cross (a b : Vec3) : Vec3 :=
  ⟨a.y * b.z - a.z * b.y, a.z * b.x - a.x * b.z, a.x * b.y - a.y * b.x⟩

/-- Vector dot product, from `calculator.rs::dot`. -/
def dot (a b : Vec3) : ℝ :=
  a.x * b.x + a.y * b.y + a.z * b.z

/-- A 3x3 real matrix given by its three rows, standing for Rust `[[f64; 3]; 3]`. -/
structure Mat3 where
  row0 : Vec3
  row1 : Vec3
  row2 : Vec3

/-- Fractional-to-Cartesian coordinate transform, from `calculator.rs::frac_to_cart`:
`cart[i] = frac[0]*matrix[0][i] + frac[1]*matrix[1][i] + frac[2]*matrix[2][i]`. -/
def frac_to_cart (frac : Vec3) (matrix : Mat3) : Vec3 :=
  ⟨frac.x * matrix.row0.x + frac.y * matrix.row1.x + frac.z * matrix.row2.x,
   frac.x * matrix.row0.y + frac.y * matrix.row1.y + frac.z * matrix.row2.y,
   frac.x * matrix.row0.z + frac.y * matrix.row1.z + frac.z * matrix.row2.z⟩

/-- Degrees to radians, Rust `f64::to_radians`. -/
noncomputable def toRadians (x : ℝ) : ℝ := x * Real.pi / 180

/-- Radians to degrees, Rust `f64::to_degrees`. -/
noncomputable def toDegrees (x : ℝ) : ℝ := x * 180 / Real.pi

/-- Lattice of a crystal: row vectors a, b, c, from `models/structure.rs::Lattice`. -/
structure Lattice where
  matrix : Mat3

/-- The 6-tuple of lattice parameters (a, b, c, alpha, beta, gamma). -/
structure LatticeParams where
  a : ℝ
  b : ℝ
  c : ℝ
  alpha : ℝ
  beta : ℝ
  gamma : ℝ

/-- Lattice parameter derivation, from `models/structure.rs::Lattice::parameters`. -/
noncomputable def Lattice.parameters (lat : Lattice) : LatticeParams :=
  let av := lat.matrix.row0
  let bv := lat.matrix.row1
  let cv := lat.matrix.row2
  let a := Real.sqrt (av.x ^ 2 + av.y ^ 2 + av.z ^ 2)
  let b := Real.sqrt (bv.x ^ 2 + bv.y ^ 2 + bv.z ^ 2)
  let c := Real.sqrt (cv.x ^ 2 + cv.y ^ 2 + cv.z ^ 2)
  let dot_bc := bv.x * cv.x + bv.y * cv.y + bv.z * cv.z
  let dot_ac := av.x * cv.x + av.y * cv.y + av.z * cv.z
  let dot_ab := av.x * bv.x + av.y * bv.y + av.z * bv.z
  ⟨a, b, c,
   toDegrees (Real.arccos (dot_bc / (b * c))),
   toDegrees (Real.arccos (dot_ac / (a * c))),
   toDegrees (Real.arccos (dot_ab / (a * b)))⟩

/-- Signed cell volume (determinant), from `models/structure.rs::Lattice::volume`. -/
def Lattice.volume (lat : Lattice) : ℝ :=
  let a := lat.matrix.row0
  let b := lat.matrix.row1
  let c := lat.matrix.row2
  a.x * (b.y * c.z - b.z * c.y) - a.y * (b.x * c.z - b.z * c.x)
    + a.z * (b.x * c.y - b.y * c.x)

/-- An atom: element symbol, fractional position, optional label,
from `models/structure.rs::Atom`. -/
structure Atom where
  element : String
  position : Vec3
  label : Option String

/-- A crystal structure, from `models/structure.rs::Crystal`. -/
structure Crystal where
  name : String
  lattice : Lattice
  atoms : List Atom
  pressure : Option ℝ
  enthalpy : Option ℝ
  energy : Option ℝ
  volume : Option ℝ
  space_group : Option String
  integrated_spin : Option ℝ
  integrated_abs_spin : Option ℝ
  source_format : Option String

/-- Atomic scattering factor parameters (4 amplitudes, 4 decays, 1 offset),
from `xrd/scattering.rs::ScatteringFactorParams`. -/
structure ScatteringFactorParams where
  a0 : ℝ
  a1 : ℝ
  a2 : ℝ
  a3 : ℝ
  b0 : ℝ
  b1 : ℝ
  b2 : ℝ
  b3 : ℝ
  c : ℝ

/-- Evaluation `f(s) = c + sum_i a_i exp(-b_i s^2)`, from
`ScatteringFactorParams::calculate` (the Rust loop starts from `c` and adds
the four terms in order). -/
noncomputable def ScatteringFactorParams.calculate (p : ScatteringFactorParams) (s : ℝ) : ℝ :=
  let s2 := s * s
  p.c + p.a0 * Real.exp (-p.b0 * s2) + p.a1 * Real.exp (-p.b1 * s2)
    + p.a2 * Real.exp (-p.b2 * s2) + p.a3 * Real.exp (-p.b3 * s2)

/-- The static scattering-factor table, from `xrd/scattering.rs::SCATTERING_FACTORS`
(a `HashMap` with pairwise-distinct keys, so association-list lookup by exact key
has the same semantics as `HashMap::get`). All 45 entries are transcribed. -/
noncomputable def SCATTERING_FACTORS : List (String × ScatteringFactorParams) :=
  [("H", ⟨0.493002, 0.322912, 0.140191, 0.040810, 10.5109, 26.1257, 3.14236, 57.7997, 0.003038⟩),
   ("He", ⟨0.8734, 0.6309, 0.3112, 0.1780, 9.1037, 3.3568, 22.9276, 0.9821, 0.0064⟩),
   ("Li", ⟨1.1282, 0.7508, 0.6175, 0.4653, 3.9546, 1.0524, 85.3905, 168.261, 0.0377⟩),
   ("Be", ⟨1.5919, 1.1278, 0.5391, 0.7029, 43.6427, 1.8623, 103.483, 0.5420, 0.0385⟩),
   ("B", ⟨2.0545, 1.3326, 1.0979, 0.7068, 23.2185, 1.0210, 60.3498, 0.1403, -0.1932⟩),
   ("C", ⟨2.3100, 1.0200, 1.5886, 0.8650, 20.8439, 10.2075, 0.5687, 51.6512, 0.2156⟩),
   ("N", ⟨12.2126, 3.1322, 2.0125, 1.1663, 0.0057, 9.8933, 28.9975, 0.5826, -11.529⟩),
   ("O", ⟨3.0485, 2.2868, 1.5463, 0.8670, 13.2771, 5.7011, 0.3239, 32.9089, 0.2508⟩),
   ("F", ⟨3.5392, 2.6412, 1.5170, 1.0243, 10.2825, 4.2944, 0.2615, 26.1476, 0.2776⟩),
   ("Na", ⟨4.7626, 3.1736, 1.2674, 1.1128, 3.2850, 8.8422, 0.3136, 129.424, 0.6760⟩),
   ("Mg", ⟨5.4204, 2.1735, 1.2269, 2.3073, 2.8275, 79.2611, 0.3808, 7.1937, 0.8584⟩),
   ("Al", ⟨6.4202, 1.9002, 1.5936, 1.9646, 3.0387, 0.7426, 31.5472, 85.0886, 1.1151⟩),
   ("Si", ⟨6.2915, 3.0353, 1.9891, 1.5410, 2.4386, 32.3337, 0.6785, 81.6937, 1.1407⟩),
   ("P", ⟨6.4345, 4.1791, 1.7800, 1.4908, 1.9067, 27.1570, 0.5260, 68.1645, 1.1149⟩),
   ("S", ⟨6.9053, 5.2034, 1.4379, 1.5863, 1.4679, 22.2151, 0.2536, 56.1720, 0.8669⟩),
   ("Cl", ⟨11.4604, 7.1964, 6.2556, 1.6455, 0.0104, 1.1662, 18.5194, 47.7784, -9.5574⟩),
   ("K", ⟨8.2186, 7.4398, 1.0519, 0.8659, 12.7949, 0.7748, 213.187, 41.6841, 1.4228⟩),
   ("Ca", ⟨8.6266, 7.3873, 1.5899, 1.0211, 10.4421, 0.6599, 85.7484, 178.437, 1.3751⟩),
   ("Ti", ⟨9.7595, 7.3558, 1.6991, 1.9021, 7.8508, 0.5000, 35.6338, 116.105, 1.2807⟩),
   ("V", ⟨10.2971, 7.3511, 2.0703, 2.0571, 6.8657, 0.4385, 26.8938, 102.478, 1.2199⟩),
   ("Cr", ⟨10.6406, 7.3537, 3.3240, 1.4922, 6.1038, 0.3920, 20.2626, 98.7399, 1.1832⟩),
   ("Mn", ⟨11.2819, 7.3573, 3.0193, 2.2441, 5.3409, 0.3432, 17.8674, 83.7543, 1.0896⟩),
   ("Fe", ⟨11.7695, 7.3573, 3.5222, 2.3045, 4.7611, 0.3072, 15.3535, 76.8805, 1.0369⟩),
   ("Co", ⟨12.2841, 7.3409, 4.0034, 2.3488, 4.2791, 0.2784, 13.5359, 71.1692, 1.0118⟩),
   ("Ni", ⟨12.8376, 7.2920, 4.4438, 2.3800, 3.8785, 0.2565, 12.1763, 66.3421, 1.0341⟩),
   ("Cu", ⟨13.3380, 7.1676, 5.6158, 1.6735, 3.5828, 0.2470, 11.3966, 64.8126, 1.1910⟩),
   ("Zn", ⟨14.0743, 7.0318, 5.1652, 2.4100, 3.2655, 0.2333, 10.3163, 58.7097, 1.3041⟩),
   ("Ga", ⟨15.2354, 6.7006, 4.3591, 2.9623, 3.0669, 0.2412, 10.7805, 61.4135, 1.7189⟩),
   ("Ge", ⟨16.0816, 6.3747, 3.7068, 3.6830, 2.8509, 0.2516, 11.4468, 54.7625, 2.1313⟩),
   ("As", ⟨16.6723, 6.0701, 3.4313, 4.2779, 2.6345, 0.2647, 12.9479, 47.7972, 2.531⟩),
   ("Se", ⟨17.0006, 5.8196, 3.9731, 4.3543, 2.4098, 0.2726, 15.2372, 43.8163, 2.8409⟩),
   ("Br", ⟨17.1789, 5.2358, 5.6377, 3.9851, 2.1723, 16.5796, 0.2609, 41.4328, 2.9557⟩),
   ("Rb", ⟨17.5816, 7.6598, 5.8981, 2.7817, 1.7139, 14.7957, 0.1603, 31.2087, 2.0782⟩),
   ("Sr", ⟨17.5663, 9.8184, 5.4220, 2.6694, 1.5564, 14.0988, 0.1664, 132.376, 2.5064⟩),
   ("Y", ⟨17.7760, 10.2946, 5.7263, 3.2656, 1.4029, 12.8006, 0.1255, 104.354, 1.9341⟩),
   ("Zr", ⟨17.8765, 10.9480, 5.4173, 3.6577, 1.2761, 11.9160, 0.1176, 87.6627, 2.0690⟩),
   ("Nb", ⟨17.6142, 12.0144, 4.0418, 3.5334, 1.1886, 11.7660, 0.2047, 69.7957, 3.7553⟩),
   ("Mo", ⟨3.7025, 17.2356, 12.8876, 3.7429, 0.2772, 1.0958, 11.0040, 61.6584, 4.3875⟩),
   ("Ag", ⟨19.2808, 16.6885, 4.8045, 1.0463, 0.6446, 7.4726, 24.6605, 99.8156, 5.1790⟩),
   ("Ba", ⟨20.3361, 19.2970, 10.8880, 2.6959, 3.2160, 0.2756, 20.2073, 167.202, 2.7731⟩),
   ("La", ⟨20.5780, 19.5990, 11.3727, 3.2879, 2.9480, 0.2440, 18.7726, 133.124, 2.1461⟩),
   ("Ce", ⟨21.1671, 19.7695, 11.8513, 3.3303, 2.8129, 0.2268, 17.6083, 127.113, 1.8623⟩),
   ("Au", ⟨16.8819, 18.5913, 25.5582, 5.8600, 0.4611, 8.6216, 1.4826, 36.3956, 12.0658⟩),
   ("Pb", ⟨31.0617, 13.0637, 18.4420, 5.9696, 0.6902, 2.3576, 8.6180, 47.2579, 13.4118⟩),
   ("Bi", ⟨33.3689, 12.9510, 16.5877, 6.4692, 0.7040, 2.9238, 8.7937, 48.0093, 13.5782⟩)]

/-- The first `n` characters of a string, Rust `s.chars().take(n).collect()`. -/
def strPrefix (s : String) (n : Nat) : String :=
  String.mk (s.toList.take n)

/-- Symbol lookup with prefix fallback, from `xrd/scattering.rs::get_scattering_factor`:
exact match, else first-two-characters match, else first-character match. -/
noncomputable def get_scattering_factor (element : String) : Option ScatteringFactorParams :=
  match SCATTERING_FACTORS.lookup element with
  | some params => some params
  | none =>
    match SCATTERING_FACTORS.lookup (strPrefix element 2) with
    | some params => some params
    | none => SCATTERING_FACTORS.lookup (strPrefix element 1)

/-- Scattering factor of an element at `s = sin(theta)/lambda`, from
`xrd/scattering.rs::calculate_scattering_factor`; unrecognized symbols give 0. -/
noncomputable def calculate_scattering_factor (element : String) (s : ℝ) : ℝ :=
  match get_scattering_factor element with
  | some params => params.calculate s
  | none => 0

/-- A diffraction peak, from `calculator.rs::Peak`. -/
structure Peak where
  two_theta : ℝ
  d_spacing : ℝ
  intensity : ℝ
  h : ℤ
  k : ℤ
  l : ℤ

/-- A computed diffraction pattern, from `calculator.rs::XrdPattern`. -/
structure XrdPattern where
  peaks : List Peak
  wavelength : ℝ
  structure_name : String

/-- The calculator state (just the X-ray wavelength), from `calculator.rs::XrdCalculator`. -/
structure XrdCalculator where
  wavelength : ℝ

/-- Reciprocal lattice matrix, from `XrdCalculator::reciprocal_lattice`:
rows `2*pi*(b x c)/V`, `2*pi*(c x a)/V`, `2*pi*(a x b)/V`; the all-zero
matrix when `|V| < 1e-10`. -/
noncomputable def reciprocal_lattice (lattice : Lattice) : Mat3 :=
  let a := lattice.matrix.row0
  let b := lattice.matrix.row1
  let c := lattice.matrix.row2
  let b_cross_c := cross b c
  let volume := dot a b_cross_c
  if |volume| < 1e-10 then ⟨⟨0, 0, 0⟩, ⟨0, 0, 0⟩, ⟨0, 0, 0⟩⟩
  else
    let c_cross_a := cross c a
    let a_cross_b := cross a b
    let factor := 2 * Real.pi / volume
    ⟨⟨b_cross_c.x * factor, b_cross_c.y * factor, b_cross_c.z * factor⟩,
     ⟨c_cross_a.x * factor, c_cross_a.y * factor, c_cross_a.z * factor⟩,
     ⟨a_cross_b.x * factor, a_cross_b.y * factor, a_cross_b.z * factor⟩⟩

/-- Reciprocal vector `G = h*b1 + k*b2 + l*b3`, from `XrdCalculator::calculate_g`. -/
def calculate_g (recip : Mat3) (h k l : ℤ) : Vec3 :=
  let hf : ℝ := (h : ℝ)
  let kf : ℝ := (k : ℝ)
  let lf : ℝ := (l : ℝ)
  ⟨hf * recip.row0.x + kf * recip.row1.x + lf * recip.row2.x,
   hf * recip.row0.y + kf * recip.row1.y + lf * recip.row2.y,
   hf * recip.row0.z + kf * recip.row1.z + lf * recip.row2.z⟩

/-- Complex structure factor (real part, imaginary part), from
`XrdCalculator::calculate_structure_factor`: a fold over the atoms accumulating
`f * cos(phase)` and `f * sin(phase)` with `phase = G . r_cartesian`. -/
noncomputable def calculate_structure_factor (xc : XrdCalculator) (crystal : Crystal)
    (g : Vec3) (sin_theta : ℝ) : ℝ × ℝ :=
  let s := sin_theta / xc.wavelength
  crystal.atoms.foldl
    (fun acc atom =>
      let f_atom := calculate_scattering_factor atom.element s
      let cart_r := frac_to_cart atom.position crystal.lattice.matrix
      let phase := dot g cart_r
      (acc.1 + f_atom * Real.cos phase, acc.2 + f_atom * Real.sin phase))
    (0, 0)

/-- Lorentz-polarization factor, from `XrdCalculator::lorentz_polarization`:
`(1 + cos^2(2 theta)) / (sin^2(theta) * cos(theta))`, short-circuited to 0
when sin or cos is numerically zero. -/
noncomputable def lorentz_polarization (theta : ℝ) : ℝ :=
  let sin_theta := Real.sin theta
  let cos_theta := Real.cos theta
  let cos_2theta := Real.cos (2 * theta)
  if |sin_theta| < 1e-10 ∨ |cos_theta| < 1e-10 then 0
  else (1 + cos_2theta * cos_2theta) / (sin_theta * sin_theta * cos_theta)

/-- One step of the inner loop of `XrdCalculator::merge_equivalent_peaks`: add the
incoming peak's intensity to the first already-merged peak whose two-theta is
within 0.01 degrees, else append it at the end. -/
noncomputable def addPeak : List Peak → Peak → List Peak
  | [], p => [p]
  | q :: rest, p =>
    if |q.two_theta - p.two_theta| < 0.01 then
      { q with intensity := q.intensity + p.intensity } :: rest
    else q :: addPeak rest p

/-- Peak merging, from `XrdCalculator::merge_equivalent_peaks`. -/
noncomputable def merge_equivalent_peaks (peaks : List Peak) : List Peak :=
  peaks.foldl addPeak []

/-- Truncating `f64`-to-`i32` cast (Rust `as i32`): round toward zero,
saturating at the i32 bounds. -/
noncomputable def toI32trunc (x : ℝ) : ℤ :=
  max (-2147483648) (min 2147483647 (if 0 ≤ x then ⌊x⌋ else -⌊-x⌋))

/-- Miller-index search bound, from `XrdCalculator::calculate` (step 2):
`((g_max * max(a, b, c)) as i32 + 1).min(30)` with `g_max = 2 sin(theta_max)/lambda`. -/
noncomputable def searchBound (xc : XrdCalculator) (lattice : Lattice)
    (two_theta_max : ℝ) : ℤ :=
  let theta_max_rad := toRadians two_theta_max / 2
  let g_max := 2 * Real.sin theta_max_rad / xc.wavelength
  let p := lattice.parameters
  min (toI32trunc (g_max * max p.a (max p.b p.c)) + 1) 30

/-- The integers from `-n` to `n` in increasing order (a Rust `-n..=n` loop). -/
def hklRange (n : ℤ) : List ℤ :=
  (List.range (2 * n + 1).toNat).map (fun i => -n + (i : ℤ))

/-- All integer triples of the triple loop in `XrdCalculator::calculate`, in loop
order, with `(0,0,0)` skipped. -/
def hklTriples (n : ℤ) : List (ℤ × ℤ × ℤ) :=
  (hklRange n).flatMap fun h =>
    (hklRange n).flatMap fun k =>
      (hklRange n).filterMap fun l =>
        if h = 0 ∧ k = 0 ∧ l = 0 then none else some (h, k, l)

/-- The body of the triple loop of `XrdCalculator::calculate` (steps 3-5): the
candidate peak produced for one `(h,k,l)`, or `none` when any of the `continue`
guards fires (`|G|` numerically zero, `|sin theta| > 1`, two-theta out of the
requested range, structure-factor intensity below 1e-10). -/
noncomputable def reflection (xc : XrdCalculator) (crystal : Crystal) (recip : Mat3)
    (two_theta_min two_theta_max : ℝ) (t : ℤ × ℤ × ℤ) : Option Peak :=
  let g := calculate_g recip t.1 t.2.1 t.2.2
  let g_mag := Real.sqrt (g.x * g.x + g.y * g.y + g.z * g.z)
  if g_mag < 1e-10 then none
  else
    let d := 2 * Real.pi / g_mag
    let sin_theta := xc.wavelength / (2 * d)
    if 1 < |sin_theta| then none
    else
      let theta := Real.arcsin sin_theta
      let two_theta := 2 * toDegrees theta
      if two_theta < two_theta_min ∨ two_theta_max < two_theta then none
      else
        let fr := calculate_structure_factor xc crystal g sin_theta
        let f_sq := fr.1 * fr.1 + fr.2 * fr.2
        if f_sq < 1e-10 then none
        else some ⟨two_theta, d, f_sq * lorentz_polarization theta, t.1, t.2.1, t.2.2⟩

/-- The candidate peak list of `XrdCalculator::calculate` before merging. -/
noncomputable def candidatePeaks (xc : XrdCalculator) (crystal : Crystal)
    (two_theta_min two_theta_max : ℝ) : List Peak :=
  let recip := reciprocal_lattice crystal.lattice
  (hklTriples (searchBound xc crystal.lattice two_theta_max)).filterMap
    (reflection xc crystal recip two_theta_min two_theta_max)

/-- Descending order on intensity, as produced by the Rust comparator
`|a, b| b.intensity.partial_cmp(&a.intensity)`. -/
noncomputable def intensityGe (a b : Peak) : Bool :=
  decide (b.intensity ≤ a.intensity)

/-- Stable sort by intensity descending, from `XrdCalculator::calculate` (step 7). -/
noncomputable def sortPeaks (peaks : List Peak) : List Peak :=
  peaks.mergeSort intensityGe

/-- Normalization to a 0-100 scale, from `XrdCalculator::calculate` (step 7):
rescale by the first (maximal) intensity when it is positive, else leave
the list untouched. -/
noncomputable def normalizePeaks (peaks : List Peak) : List Peak :=
  match peaks.head? with
  | none => peaks
  | some p0 =>
    if 0 < p0.intensity then
      peaks.map (fun p => { p with intensity := 100 * p.intensity / p0.intensity })
    else peaks

/-- The public operation `XrdCalculator::calculate`: fails exactly on the
wavelength check, else enumerates, merges, sorts and normalizes peaks. -/
noncomputable def XrdCalculator.calculate (xc : XrdCalculator) (crystal : Crystal)
    (two_theta_min two_theta_max : ℝ) : Except String XrdPattern :=
  if xc.wavelength ≤ 0 then .error "Invalid wavelength"
  else
    .ok ⟨normalizePeaks (sortPeaks (merge_equivalent_peaks
           (candidatePeaks xc crystal two_theta_min two_theta_max))),
         xc.wavelength, crystal.name⟩

/-- Profile kinds, from `commands/analyze/xrd.rs::BroadeningType`. -/
inductive BroadeningType where
  | None
  | Gaussian
  | Lorentzian
  | PseudoVoigt

/-- The Gaussian width actually computed by `apply_broadening`:
`fwhm / (2.0 * (2.0_f64.ln()).sqrt() * 2.0)`, i.e. `fwhm / (4 sqrt(ln 2))`. -/
noncomputable def sigmaOf (fwhm : ℝ) : ℝ :=
  fwhm / (2 * Real.sqrt (Real.log 2) * 2)

/-- The Lorentzian width of `apply_broadening`: `fwhm / 2`. -/
noncomputable def gammaOf (fwhm : ℝ) : ℝ := fwhm / 2

/-- Per-peak, per-sample contribution of `apply_broadening`, matching the Rust
`match broadening_type` block with `delta = sample_angle - peak.two_theta`. -/
noncomputable def contribution (bt : BroadeningType) (sigma gamma intensity delta : ℝ) : ℝ :=
  match bt with
  | .None => 0
  | .Gaussian => intensity * Real.exp (-delta * delta / (2 * sigma * sigma))
  | .Lorentzian => intensity * gamma * gamma / (delta * delta + gamma * gamma)
  | .PseudoVoigt =>
    let gauss := Real.exp (-delta * delta / (2 * sigma * sigma))
    let lorentz := gamma * gamma / (delta * delta + gamma * gamma)
    intensity * 0.5 * (gauss + lorentz)

/-- Peak broadening, from `commands/analyze/xrd.rs::apply_broadening`: sample the
window uniformly, add each sufficiently intense peak's profile contribution at
every sample, then rescale the curve so its maximum is 100 (when positive). -/
noncomputable def apply_broadening (peaks : List Peak) (theta_min theta_max step fwhm : ℝ)
    (bt : BroadeningType) : List (ℝ × ℝ) :=
  let n_points := (⌈(theta_max - theta_min) / step⌉).toNat + 1
  let base : List (ℝ × ℝ) := (List.range n_points).map (fun i => (theta_min + (i : ℝ) * step, 0))
  let sigma := sigmaOf fwhm
  let gamma := gammaOf fwhm
  let accumulated := peaks.foldl
    (fun pat peak =>
      if peak.intensity < 0.1 then pat
      else pat.map (fun q => (q.1, q.2 + contribution bt sigma gamma peak.intensity (q.1 - peak.two_theta))))
    base
  let max_intensity := accumulated.foldl (fun m q => max m q.2) 0
  if 0 < max_intensity then accumulated.map (fun q => (q.1, q.2 * 100 / max_intensity))
  else accumulated

/-! ### Helper lemmas -/

/-- Total intensity of a peak list. -/
def isum (l : List Peak) : ℝ := (l.map Peak.intensity).sum

/-- The non-intensity fields of a peak (two-theta, d-spacing, Miller indices). -/
def skel (p : Peak) : ℝ × ℝ × ℤ × ℤ × ℤ := (p.two_theta, p.d_spacing, p.h, p.k, p.l)

theorem isum_addPeak (acc : List Peak) (p : Peak) :
    isum (addPeak acc p) = isum acc + p.intensity := by
  induction acc with
  | nil => simp [addPeak, isum]
  | cons q rest ih =>
    by_cases h : |q.two_theta - p.two_theta| < 0.01
    · simp [addPeak, h, isum]; ring
    · simp only [addPeak, if_neg h, isum, List.map_cons, List.sum_cons] at *
      rw [ih]; ring

theorem skel_addPeak (acc : List Peak) (p : Peak) :
    (addPeak acc p).map skel = acc.map skel ∨
      (addPeak acc p).map skel = acc.map skel ++ [skel p] := by
  induction acc with
  | nil => right; simp [addPeak]
  | cons q rest ih =>
    by_cases h : |q.two_theta - p.two_theta| < 0.01
    · left; simp [addPeak, h, skel]
    · rcases ih with ih | ih
      · left; simp [addPeak, if_neg h, ih]
      · right; simp [addPeak, if_neg h, ih]

theorem isum_foldl_addPeak (ps : List Peak) :
    ∀ acc, isum (ps.foldl addPeak acc) = isum acc + isum ps := by
  induction ps with
  | nil => intro acc; simp [isum]
  | cons p rest ih =>
    intro acc
    rw [List.foldl_cons, ih (addPeak acc p), isum_addPeak]
    simp only [isum, List.map_cons, List.sum_cons]
    ring

theorem skel_foldl_addPeak (ps : List Peak) :
    ∀ acc, ∃ t, (ps.foldl addPeak acc).map skel = acc.map skel ++ t ∧
      t.Sublist (ps.map skel) := by
  induction ps with
  | nil => intro acc; exact ⟨[], by simp, by simp⟩
  | cons p rest ih =>
    intro acc
    rcases skel_addPeak acc p with h | h
    · obtain ⟨t, ht, hs⟩ := ih (addPeak acc p)
      exact ⟨t, by rw [List.foldl_cons, ht, h], hs.trans (List.sublist_cons_self _ _)⟩
    · obtain ⟨t, ht, hs⟩ := ih (addPeak acc p)
      refine ⟨skel p :: t, ?_, List.cons_sublist_cons.mpr hs⟩
      rw [List.foldl_cons, ht, h, List.append_assoc]
      rfl

/-! ### Claim theorems -/

/-- C9: `calculate` is deterministic — in this pure-function embedding of the
Rust code (which has no hidden state, randomness or I/O), two calls with
identical crystal, wavelength and angle range are the very same value, so the
returned peak lists are identical. -/
theorem calculate_deterministic (xc : XrdCalculator) (crystal : Crystal)
    (two_theta_min two_theta_max : ℝ) :
    xc.calculate crystal two_theta_min two_theta_max
      = xc.calculate crystal two_theta_min two_theta_max := rfl

/-- C4: two candidate reflections whose two-theta values differ by less than
0.01 degrees are merged into a single peak whose intensity is the sum of the
two pre-merge intensities, and which keeps the first-encountered peak's
two-theta, d-spacing and (h,k,l). -/
theorem merge_two_close_peaks (p1 p2 : Peak)
    (h : |p1.two_theta - p2.two_theta| < 0.01) :
    merge_equivalent_peaks [p1, p2]
      = [{ p1 with intensity := p1.intensity + p2.intensity }] := by
  simp [merge_equivalent_peaks, addPeak, h]

/-- Witness for C4 at two concrete peaks 0.005 degrees apart. -/
theorem merge_two_close_peaks_witness :
    |(10 : ℝ) - 10.005| < 0.01 ∧
      merge_equivalent_peaks [⟨10, 2, 30, 1, 0, 0⟩, ⟨10.005, 2, 40, 1, 1, 0⟩]
        = [⟨10, 2, 30 + 40, 1, 0, 0⟩] :=
  ⟨by norm_num [abs_lt],
   merge_two_close_peaks ⟨10, 2, 30, 1, 0, 0⟩ ⟨10.005, 2, 40, 1, 1, 0⟩ (by norm_num [abs_lt])⟩

/-- The single output peak of one merge group `(head, members)`: the head — the
group's first-encountered input peak — keeps all its fields and accumulates the
members' intensities. -/
noncomputable def collapseGroup (g : Peak × List Peak) : Peak :=
  { g.1 with intensity := g.1.intensity + isum g.2 }

@[simp]
theorem collapseGroup_two_theta (g : Peak × List Peak) :
    (collapseGroup g).two_theta = g.1.two_theta := rfl

theorem collapseGroup_nil (p : Peak) : collapseGroup (p, []) = p := by
  simp [collapseGroup, isum]

theorem perm_insert_middle (A B C : List Peak) (p : Peak) :
    ((A ++ (B ++ C)) ++ [p]).Perm (A ++ ((B ++ [p]) ++ C)) := by
  simp only [List.append_assoc]
  exact List.Perm.append_left _ (List.Perm.append_left _ List.perm_append_comm)

/-- One `addPeak` step, described on merge groups: the incoming peak either opens
a new group at the end, or joins some existing group `g` whose head is within
the 0.01-degree tolerance, adding itself as a member. -/
theorem addPeak_groups (p : Peak) (gs : List (Peak × List Peak)) :
    addPeak (gs.map collapseGroup) p = (gs ++ [(p, [])]).map collapseGroup
    ∨ ∃ gs₁ g gs₂, gs = gs₁ ++ g :: gs₂ ∧ |g.1.two_theta - p.two_theta| < 0.01 ∧
        addPeak (gs.map collapseGroup) p
          = (gs₁ ++ (g.1, g.2 ++ [p]) :: gs₂).map collapseGroup := by
  induction gs with
  | nil =>
    left
    simp [addPeak, collapseGroup_nil]
  | cons g rest ih =>
    by_cases h : |g.1.two_theta - p.two_theta| < 0.01
    · right
      refine ⟨[], g, rest, rfl, h, ?_⟩
      simp only [List.map_cons, addPeak, collapseGroup_two_theta, List.nil_append]
      rw [if_pos h]
      congr 1
      simp only [collapseGroup, isum, List.map_append, List.map_cons, List.map_nil,
        List.sum_append, List.sum_cons, List.sum_nil, Peak.mk.injEq, true_and, and_true]
      ring
    · rcases ih with heq | ⟨gs₁, g', gs₂, hsplit, htol, heq⟩
      · left
        simp only [List.map_cons, addPeak, collapseGroup_two_theta]
        rw [if_neg h, heq]
        simp
      · right
        refine ⟨g :: gs₁, g', gs₂, by rw [hsplit, List.cons_append], htol, ?_⟩
        simp only [List.map_cons, addPeak, collapseGroup_two_theta]
        rw [if_neg h, heq]
        simp

/-- The whole merge fold, described on groups, with the already-consumed input
`D` tracked: the accumulator is always the collapse of a group list whose
groups are subsequences of the consumed input, partition it up to permutation,
and whose members lie within tolerance of their head. -/
theorem foldl_addPeak_groups :
    ∀ (rest : List Peak) (gs : List (Peak × List Peak)) (D : List Peak),
      (∀ g ∈ gs, (g.1 :: g.2).Sublist D) →
      D.Perm (gs.map (fun g => g.1 :: g.2)).flatten →
      (∀ g ∈ gs, ∀ q ∈ g.2, |g.1.two_theta - q.two_theta| < 0.01) →
      ∃ gs' : List (Peak × List Peak),
        rest.foldl addPeak (gs.map collapseGroup) = gs'.map collapseGroup ∧
        (∀ g ∈ gs', (g.1 :: g.2).Sublist (D ++ rest)) ∧
        (D ++ rest).Perm (gs'.map (fun g => g.1 :: g.2)).flatten ∧
        (∀ g ∈ gs', ∀ q ∈ g.2, |g.1.two_theta - q.two_theta| < 0.01) := by
  intro rest
  induction rest with
  | nil =>
    intro gs D hsub hperm htol
    exact ⟨gs, by simp, by simpa using hsub, by simpa using hperm, htol⟩
  | cons p rest ih =>
    intro gs D hsub hperm htol
    rw [List.foldl_cons]
    rcases addPeak_groups p gs with heq | ⟨gs₁, g, gs₂, hsplit, htolp, heq⟩
    · rw [heq]
      obtain ⟨gs', h1, h2, h3, h4⟩ := ih (gs ++ [(p, [])]) (D ++ [p])
        (by
          intro g' hg
          rcases List.mem_append.mp hg with hg | hg
          · exact (hsub g' hg).trans (List.sublist_append_left D [p])
          · simp only [List.mem_singleton] at hg
            subst hg
            exact List.sublist_append_right D [p])
        (by
          rw [List.map_append, List.flatten_append]
          simpa using hperm.append_right [p])
        (by
          intro g' hg q hq
          rcases List.mem_append.mp hg with hg | hg
          · exact htol g' hg q hq
          · simp only [List.mem_singleton] at hg
            subst hg
            simp at hq)
      refine ⟨gs', h1, ?_, ?_, h4⟩
      · intro g' hg
        simpa [List.append_assoc] using h2 g' hg
      · simpa [List.append_assoc] using h3
    · subst hsplit
      rw [heq]
      obtain ⟨gs', h1, h2, h3, h4⟩ := ih (gs₁ ++ (g.1, g.2 ++ [p]) :: gs₂) (D ++ [p])
        (by
          intro g' hg
          rcases List.mem_append.mp hg with hg | hg
          · exact (hsub g' (List.mem_append_left _ hg)).trans
              (List.sublist_append_left D [p])
          rcases List.mem_cons.mp hg with hg | hg
          · subst hg
            have hgin : (g.1 :: g.2).Sublist D :=
              hsub g (List.mem_append_right _ (List.mem_cons_self g gs₂))
            simpa using hgin.append (List.Sublist.refl [p])
          · exact (hsub g' (List.mem_append_right _ (List.mem_cons_of_mem g hg))).trans
              (List.sublist_append_left D [p]))
        (by
          have e1 : ((gs₁ ++ g :: gs₂).map (fun g => g.1 :: g.2)).flatten
              = (gs₁.map (fun g => g.1 :: g.2)).flatten
                ++ ((g.1 :: g.2) ++ (gs₂.map (fun g => g.1 :: g.2)).flatten) := by
            simp
          have e2 : ((gs₁ ++ (g.1, g.2 ++ [p]) :: gs₂).map (fun g => g.1 :: g.2)).flatten
              = (gs₁.map (fun g => g.1 :: g.2)).flatten
                ++ (((g.1 :: g.2) ++ [p])
                  ++ (gs₂.map (fun g => g.1 :: g.2)).flatten) := by
            simp
          have h5 : (D ++ [p]).Perm
              (((gs₁.map (fun g => g.1 :: g.2)).flatten
                ++ ((g.1 :: g.2) ++ (gs₂.map (fun g => g.1 :: g.2)).flatten)) ++ [p]) := by
            rw [← e1]
            exact hperm.append_right [p]
          rw [e2]
          exact h5.trans (perm_insert_middle _ _ _ p))
        (by
          intro g' hg q hq
          rcases List.mem_append.mp hg with hg | hg
          · exact htol g' (List.mem_append_left _ hg) q hq
          rcases List.mem_cons.mp hg with hg | hg
          · subst hg
            rcases List.mem_append.mp hq with hq | hq
            · exact htol g (List.mem_append_right _ (List.mem_cons_self g gs₂)) q hq
            · simp only [List.mem_singleton] at hq
              subst hq
              exact htolp
          · exact htol g' (List.mem_append_right _ (List.mem_cons_of_mem g hg)) q hq)
      refine ⟨gs', h1, ?_, ?_, h4⟩
      · intro g' hg
        simpa [List.append_assoc] using h2 g' hg
      · simpa [List.append_assoc] using h3

/-- C10: `merge_equivalent_peaks` conserves total intensity, and the output is
exactly the collapse of a group decomposition of the input: each output peak is
the FIRST input peak assigned to its group — each group `(head, members)` is a
subsequence of the input list (so the head precedes every member in input
order), the groups partition the input up to permutation, every member lies
within 0.01 degrees of its head's two-theta, and the output peak keeps the
head's two_theta, d_spacing and (h,k,l) verbatim, with only the group's summed
intensity. The output's non-intensity fields also form a subsequence of the
input's, in first-encounter order. -/
theorem merge_first_assigned (ps : List Peak) :
    isum (merge_equivalent_peaks ps) = isum ps ∧
      ((merge_equivalent_peaks ps).map skel).Sublist (ps.map skel) ∧
      ∃ gs : List (Peak × List Peak),
        merge_equivalent_peaks ps = gs.map collapseGroup ∧
        (∀ g ∈ gs, (g.1 :: g.2).Sublist ps) ∧
        ps.Perm (gs.map (fun g => g.1 :: g.2)).flatten ∧
        (∀ g ∈ gs, ∀ q ∈ g.2, |g.1.two_theta - q.two_theta| < 0.01) := by
  refine ⟨?_, ?_, ?_⟩
  · simpa [merge_equivalent_peaks, isum] using isum_foldl_addPeak ps []
  · obtain ⟨t, ht, hs⟩ := skel_foldl_addPeak ps []
    rw [merge_equivalent_peaks, ht]
    simpa using hs
  · obtain ⟨gs', h1, h2, h3, h4⟩ := foldl_addPeak_groups ps [] []
      (by simp) (by simp) (by simp)
    exact ⟨gs', by simpa [merge_equivalent_peaks] using h1,
      by simpa using h2, by simpa using h3, h4⟩

/-- C5: the scattering-factor lookup tries, in order, the exact symbol, the
first two characters, then the first character; when all three lookups fail,
`calculate_scattering_factor` returns 0 — it never errors. -/
theorem scattering_lookup_policy (element : String) (s : ℝ) :
    (∀ p, SCATTERING_FACTORS.lookup element = some p →
      get_scattering_factor element = some p) ∧
    (SCATTERING_FACTORS.lookup element = none →
      ∀ p, SCATTERING_FACTORS.lookup (strPrefix element 2) = some p →
        get_scattering_factor element = some p) ∧
    (SCATTERING_FACTORS.lookup element = none →
      SCATTERING_FACTORS.lookup (strPrefix element 2) = none →
      get_scattering_factor element = SCATTERING_FACTORS.lookup (strPrefix element 1)) ∧
    (SCATTERING_FACTORS.lookup element = none →
      SCATTERING_FACTORS.lookup (strPrefix element 2) = none →
      SCATTERING_FACTORS.lookup (strPrefix element 1) = none →
      calculate_scattering_factor element s = 0) := by
  refine ⟨?_, ?_, ?_, ?_⟩
  · intro p h1
    simp [get_scattering_factor, h1]
  · intro h1 p h2
    simp [get_scattering_factor, h1, h2]
  · intro h1 h2
    simp [get_scattering_factor, h1, h2]
  · intro h1 h2 h3
    simp [calculate_scattering_factor, get_scattering_factor, h1, h2, h3]

/-- Witness for C5: the symbol "Zz9" misses the table at all three stages
("Zz9", "Zz", "Z") and gets scattering factor 0. -/
theorem scattering_lookup_policy_witness :
    SCATTERING_FACTORS.lookup "Zz9" = none ∧
      SCATTERING_FACTORS.lookup (strPrefix "Zz9" 2) = none ∧
      SCATTERING_FACTORS.lookup (strPrefix "Zz9" 1) = none ∧
      calculate_scattering_factor "Zz9" 0 = 0 :=
  ⟨rfl, rfl, rfl, (scattering_lookup_policy "Zz9" 0).2.2.2 rfl rfl rfl⟩

/-- C7: at `s = 0` the scattering factor is `c + a1 + a2 + a3 + a4`; for Si this
is within 1.0 of the atomic number 14, and for Fe within 1.0 of 26. -/
theorem scattering_factor_si_fe :
    |calculate_scattering_factor "Si" 0 - 14| < 1 ∧
      |calculate_scattering_factor "Fe" 0 - 26| < 1 := by
  have hsi : get_scattering_factor "Si"
      = some ⟨6.2915, 3.0353, 1.9891, 1.5410, 2.4386, 32.3337, 0.6785, 81.6937, 1.1407⟩ := rfl
  have hfe : get_scattering_factor "Fe"
      = some ⟨11.7695, 7.3573, 3.5222, 2.3045, 4.7611, 0.3072, 15.3535, 76.8805, 1.0369⟩ := rfl
  constructor
  · simp [calculate_scattering_factor, hsi, ScatteringFactorParams.calculate, Real.exp_zero]
    norm_num [abs_lt]
  · simp [calculate_scattering_factor, hfe, ScatteringFactorParams.calculate, Real.exp_zero]
    norm_num [abs_lt]

/-- C2, code evaluation at the failing input: with `fwhm = 2`, `delta = 1` and
intensity 1, the code's Gaussian contribution is exactly 1/4 (its sigma is
`fwhm / (4 sqrt(ln 2))`), while the claimed formula with
`sigma = fwhm / (2 sqrt(2 ln 2))` — the conversion under which the parameter is
the profile's full width at half maximum, as the CLI documents — gives 1/2. -/
theorem gaussian_sigma_divergence :
    contribution .Gaussian (sigmaOf 2) (gammaOf 2) 1 1 = 1 / 4 ∧
      (1 : ℝ) * Real.exp (-1 * 1 / (2 * (2 / (2 * Real.sqrt (2 * Real.log 2))) ^ 2)) = 1 / 2 := by
  have hL : (0 : ℝ) < Real.log 2 := Real.log_pos (by norm_num)
  have hs : Real.sqrt (Real.log 2) * Real.sqrt (Real.log 2) = Real.log 2 :=
    Real.mul_self_sqrt hL.le
  have hs2 : Real.sqrt (2 * Real.log 2) ^ 2 = 2 * Real.log 2 :=
    Real.sq_sqrt (by positivity)
  have hsne : Real.sqrt (Real.log 2) ≠ 0 := by positivity
  have hs2ne : Real.sqrt (2 * Real.log 2) ≠ 0 := by positivity
  have hexp2 : Real.exp (2 * Real.log 2) = 4 := by
    rw [show (2 : ℝ) * Real.log 2 = Real.log 2 + Real.log 2 by ring, Real.exp_add,
      Real.exp_log (by norm_num : (0:ℝ) < 2)]
    norm_num
  have hexp1 : Real.exp (Real.log 2) = 2 := Real.exp_log (by norm_num)
  constructor
  · show (1 : ℝ) * Real.exp (-1 * 1 / (2 * sigmaOf 2 * sigmaOf 2)) = 1 / 4
    have harg : (-1 : ℝ) * 1 / (2 * sigmaOf 2 * sigmaOf 2) = -(2 * Real.log 2) := by
      rw [sigmaOf]
      field_simp
      nlinarith [hs]
    rw [harg, Real.exp_neg, hexp2]
    norm_num
  · have hs3 : (Real.sqrt 2 * Real.sqrt (Real.log 2)) ^ 2 = 2 * Real.log 2 := by
      rw [mul_pow, Real.sq_sqrt (by norm_num : (0:ℝ) ≤ 2), Real.sq_sqrt hL.le]
    have harg : (-1 : ℝ) * 1 / (2 * (2 / (2 * Real.sqrt (2 * Real.log 2))) ^ 2)
        = -Real.log 2 := by
      rw [div_pow]
      field_simp
      nlinarith [hs2, hs3]
    rw [harg, Real.exp_neg, hexp1]
    norm_num

/-! ### Degenerate-lattice behavior -/

/-- The all-zero 3x3 matrix. -/
def zeroMat : Mat3 := ⟨⟨0, 0, 0⟩, ⟨0, 0, 0⟩, ⟨0, 0, 0⟩⟩

theorem dot_cross_eq_volume (lat : Lattice) :
    dot lat.matrix.row0 (cross lat.matrix.row1 lat.matrix.row2) = lat.volume := by
  simp only [dot, cross, Lattice.volume]
  ring

theorem recip_degenerate (lat : Lattice) (h : |lat.volume| < 1e-10) :
    reciprocal_lattice lat = zeroMat := by
  simp only [reciprocal_lattice, dot_cross_eq_volume]
  rw [if_pos h]
  rfl

theorem reflection_zeroMat (xc : XrdCalculator) (crystal : Crystal)
    (two_theta_min two_theta_max : ℝ) (t : ℤ × ℤ × ℤ) :
    reflection xc crystal zeroMat two_theta_min two_theta_max t = none := by
  simp only [reflection, calculate_g, zeroMat]
  norm_num

theorem calc_degenerate (w : ℝ) (hw : 0 < w) (crystal : Crystal)
    (two_theta_min two_theta_max : ℝ) (h : |crystal.lattice.volume| < 1e-10) :
    XrdCalculator.calculate ⟨w⟩ crystal two_theta_min two_theta_max
      = .ok ⟨[], w, crystal.name⟩ := by
  have hcand : candidatePeaks ⟨w⟩ crystal two_theta_min two_theta_max = [] := by
    rw [candidatePeaks, recip_degenerate crystal.lattice h]
    exact List.filterMap_eq_nil_iff.mpr fun t _ =>
      reflection_zeroMat ⟨w⟩ crystal two_theta_min two_theta_max t
  rw [XrdCalculator.calculate, if_neg (not_le.mpr hw), hcand]
  simp [merge_equivalent_peaks, sortPeaks, normalizePeaks]

/-- A degenerate crystal: the zero lattice (volume 0) with one Si atom. -/
noncomputable def degenerateCrystal : Crystal :=
  ⟨"degenerate", ⟨zeroMat⟩, [⟨"Si", ⟨0, 0, 0⟩, none⟩],
   none, none, none, none, none, none, none, none⟩

/-- C1, counterexample: at a concrete degenerate lattice (|V| = 0 < 1e-10) and a
positive wavelength, `calculate` does NOT reject — it returns `Ok` with an empty
peak list, refuting the claim that every degenerate lattice yields an error. -/
theorem degenerate_lattice_not_rejected :
    |degenerateCrystal.lattice.volume| < 1e-10 ∧
      XrdCalculator.calculate ⟨1.5418⟩ degenerateCrystal 10 90
        = .ok ⟨[], 1.5418, "degenerate"⟩ := by
  have hv : |degenerateCrystal.lattice.volume| < 1e-10 := by
    simp [degenerateCrystal, zeroMat, Lattice.volume]
    norm_num
  exact ⟨hv, calc_degenerate 1.5418 (by norm_num) degenerateCrystal 10 90 hv⟩

/-- C1, amended: `calculate` returns an error exactly when the wavelength is
non-positive (one fatal failure, reported once); a degenerate lattice
(|V| < 1e-10) with a positive wavelength is NOT an error — the reciprocal
lattice is short-circuited to zero and the call returns `Ok` with an empty
peak list. -/
theorem calculate_error_iff (w : ℝ) (crystal : Crystal) (two_theta_min two_theta_max : ℝ) :
    ((∃ e, XrdCalculator.calculate ⟨w⟩ crystal two_theta_min two_theta_max = .error e) ↔ w ≤ 0) ∧
    (0 < w → |crystal.lattice.volume| < 1e-10 →
      XrdCalculator.calculate ⟨w⟩ crystal two_theta_min two_theta_max
        = .ok ⟨[], w, crystal.name⟩) := by
  constructor
  · constructor
    · rintro ⟨e, he⟩
      by_contra hw
      rw [XrdCalculator.calculate, if_neg hw] at he
      exact Except.noConfusion he
    · intro hw
      exact ⟨"Invalid wavelength", by rw [XrdCalculator.calculate, if_pos hw]⟩
  · intro hw hv
    exact calc_degenerate w hw crystal two_theta_min two_theta_max hv

/-- Witness for C1's amended theorem at wavelength -1 (error) and at the concrete
degenerate crystal with wavelength 1 (Ok with empty peaks). -/
theorem calculate_error_iff_witness :
    (∃ e, XrdCalculator.calculate ⟨-1⟩ degenerateCrystal 10 90 = .error e) ∧
      XrdCalculator.calculate ⟨1⟩ degenerateCrystal 10 90 = .ok ⟨[], 1, "degenerate"⟩ :=
  ⟨(calculate_error_iff (-1) degenerateCrystal 10 90).1.mpr (by norm_num),
   (calculate_error_iff 1 degenerateCrystal 10 90).2 (by norm_num)
     (by simp [degenerateCrystal, zeroMat, Lattice.volume]; norm_num)⟩

/-! ### Unknown-element atoms -/

theorem sf_append_unknown (xc : XrdCalculator) (crystal : Crystal) (atom : Atom)
    (g : Vec3) (sin_theta : ℝ) (h : get_scattering_factor atom.element = none) :
    calculate_structure_factor xc { crystal with atoms := crystal.atoms ++ [atom] } g sin_theta
      = calculate_structure_factor xc crystal g sin_theta := by
  simp only [calculate_structure_factor, List.foldl_append, List.foldl_cons, List.foldl_nil,
    calculate_scattering_factor, h]
  simp

/-- C6: an atom whose element symbol matches no table entry (so its scattering
factor is 0) leaves the structure-factor pair unchanged for every reciprocal
vector and sin(theta), and consequently the whole computed pattern of the
crystal with that atom appended equals the pattern without it. -/
theorem unknown_atom_no_effect (xc : XrdCalculator) (crystal : Crystal) (atom : Atom)
    (g : Vec3) (sin_theta two_theta_min two_theta_max : ℝ)
    (h : get_scattering_factor atom.element = none) :
    calculate_structure_factor xc { crystal with atoms := crystal.atoms ++ [atom] } g sin_theta
        = calculate_structure_factor xc crystal g sin_theta ∧
      xc.calculate { crystal with atoms := crystal.atoms ++ [atom] } two_theta_min two_theta_max
        = xc.calculate crystal two_theta_min two_theta_max := by
  refine ⟨sf_append_unknown xc crystal atom g sin_theta h, ?_⟩
  have hrefl : reflection xc { crystal with atoms := crystal.atoms ++ [atom] }
      (reciprocal_lattice crystal.lattice) two_theta_min two_theta_max
      = reflection xc crystal (reciprocal_lattice crystal.lattice) two_theta_min two_theta_max := by
    funext t
    simp only [reflection, sf_append_unknown xc crystal atom _ _ h]
  have hcand : candidatePeaks xc { crystal with atoms := crystal.atoms ++ [atom] }
      two_theta_min two_theta_max = candidatePeaks xc crystal two_theta_min two_theta_max := by
    simp only [candidatePeaks, hrefl]
  rw [XrdCalculator.calculate, XrdCalculator.calculate, hcand]

/-- A simple cubic crystal (a = 3) with one Si atom at the origin. -/
noncomputable def siCubic : Crystal :=
  ⟨"si", ⟨⟨⟨3, 0, 0⟩, ⟨0, 3, 0⟩, ⟨0, 0, 3⟩⟩⟩, [⟨"Si", ⟨0, 0, 0⟩, none⟩],
   none, none, none, none, none, none, none, none⟩

/-- An atom whose element symbol misses the scattering table at all three stages. -/
noncomputable def xxAtom : Atom := ⟨"Xx", ⟨0.5, 0.5, 0.5⟩, none⟩

/-- Witness for C6: appending an "Xx" atom (no exact, two-character, or
one-character table match) to a one-atom Si crystal changes neither the
structure factor at a concrete G nor the computed pattern. -/
theorem unknown_atom_no_effect_witness :
    get_scattering_factor "Xx" = none ∧
      calculate_structure_factor ⟨1.5418⟩ { siCubic with atoms := siCubic.atoms ++ [xxAtom] }
          ⟨1, 0, 0⟩ 0.2
        = calculate_structure_factor ⟨1.5418⟩ siCubic ⟨1, 0, 0⟩ 0.2 ∧
      XrdCalculator.calculate ⟨1.5418⟩ { siCubic with atoms := siCubic.atoms ++ [xxAtom] } 10 90
        = XrdCalculator.calculate ⟨1.5418⟩ siCubic 10 90 := by
  have h : get_scattering_factor "Xx" = none := rfl
  have hmain := unknown_atom_no_effect ⟨1.5418⟩ siCubic xxAtom ⟨1, 0, 0⟩ 0.2 10 90 h
  exact ⟨h, hmain.1, hmain.2⟩

/-! ### Pipeline invariants (merge, sort, normalize) -/

theorem addPeak_pred (P : Peak → Prop)
    (hstep : ∀ q p, P q → P p → P { q with intensity := q.intensity + p.intensity }) :
    ∀ (acc : List Peak) (p : Peak), (∀ q ∈ acc, P q) → P p → ∀ r ∈ addPeak acc p, P r := by
  intro acc
  induction acc with
  | nil =>
    intro p _ hp r hr
    simp only [addPeak, List.mem_singleton] at hr
    exact hr ▸ hp
  | cons q rest ih =>
    intro p hacc hp r hr
    by_cases h : |q.two_theta - p.two_theta| < 0.01
    · rw [addPeak, if_pos h] at hr
      rcases List.mem_cons.mp hr with h1 | h1
      · exact h1 ▸ hstep q p (hacc q (by simp)) hp
      · exact hacc r (List.mem_cons_of_mem q h1)
    · rw [addPeak, if_neg h] at hr
      rcases List.mem_cons.mp hr with h1 | h1
      · exact h1 ▸ hacc q (by simp)
      · exact ih p (fun x hx => hacc x (List.mem_cons_of_mem q hx)) hp r h1

theorem merge_pred (P : Peak → Prop)
    (hstep : ∀ q p, P q → P p → P { q with intensity := q.intensity + p.intensity })
    (ps : List Peak) (h : ∀ p ∈ ps, P p) :
    ∀ r ∈ merge_equivalent_peaks ps, P r := by
  have key : ∀ (l : List Peak) (acc : List Peak), (∀ q ∈ acc, P q) → (∀ p ∈ l, P p) →
      ∀ r ∈ l.foldl addPeak acc, P r := by
    intro l
    induction l with
    | nil => intro acc hacc _ r hr; exact hacc r hr
    | cons p rest ih =>
      intro acc hacc hl r hr
      rw [List.foldl_cons] at hr
      exact ih (addPeak acc p)
        (addPeak_pred P hstep acc p hacc (hl p (by simp)))
        (fun x hx => hl x (List.mem_cons_of_mem p hx)) r hr
  exact key ps [] (by simp) h

theorem mem_sortPeaks {r : Peak} {l : List Peak} : r ∈ sortPeaks l ↔ r ∈ l :=
  (List.mergeSort_perm l intensityGe).mem_iff

theorem sortPeaks_sorted (l : List Peak) :
    (sortPeaks l).Sorted (fun a b => b.intensity ≤ a.intensity) := by
  have h := @List.sorted_mergeSort Peak intensityGe
    (fun a b c hab hbc => by
      simp only [intensityGe, decide_eq_true_eq] at *
      exact le_trans hbc hab)
    (fun a b => by
      simp only [intensityGe, Bool.or_eq_true, decide_eq_true_eq]
      exact le_total b.intensity a.intensity)
    l
  exact h.imp (fun hab => by simpa [intensityGe] using hab)

theorem normalize_pred (P : Peak → Prop)
    (hP : ∀ p x, P p → P { p with intensity := x }) (l : List Peak)
    (h : ∀ p ∈ l, P p) : ∀ r ∈ normalizePeaks l, P r := by
  rw [normalizePeaks]
  split
  · exact h
  · split
    · intro r hr
      rcases List.mem_map.mp hr with ⟨p, hp, rfl⟩
      exact hP p _ (h p hp)
    · exact h

/-! ### Properties of one reflection -/

theorem lorentz_arcsin_nonneg (x : ℝ) : 0 ≤ lorentz_polarization (Real.arcsin x) := by
  rw [lorentz_polarization]
  split
  · exact le_refl 0
  · apply div_nonneg
    · nlinarith [sq_nonneg (Real.cos (2 * Real.arcsin x))]
    · apply mul_nonneg (mul_self_nonneg _)
      rw [Real.cos_arcsin]
      positivity

theorem reflection_some_props (xc : XrdCalculator) (crystal : Crystal) (recip : Mat3)
    (two_theta_min two_theta_max : ℝ) (t : ℤ × ℤ × ℤ) (p : Peak)
    (h : reflection xc crystal recip two_theta_min two_theta_max t = some p) :
    (two_theta_min ≤ p.two_theta ∧ p.two_theta ≤ two_theta_max) ∧ 0 ≤ p.intensity := by
  simp only [reflection] at h
  split at h
  · exact absurd h (by simp)
  split at h
  · exact absurd h (by simp)
  split at h
  · exact absurd h (by simp)
  split at h
  · exact absurd h (by simp)
  rename_i hmag hsin hrange hfsq
  push_neg at hrange
  injection h with hp
  subst hp
  refine ⟨⟨hrange.1, hrange.2⟩, ?_⟩
  exact mul_nonneg (add_nonneg (mul_self_nonneg _) (mul_self_nonneg _)) (lorentz_arcsin_nonneg _)

theorem candidate_props (xc : XrdCalculator) (crystal : Crystal)
    (two_theta_min two_theta_max : ℝ) :
    ∀ p ∈ candidatePeaks xc crystal two_theta_min two_theta_max,
      (two_theta_min ≤ p.two_theta ∧ p.two_theta ≤ two_theta_max) ∧ 0 ≤ p.intensity := by
  intro p hp
  rw [candidatePeaks] at hp
  rcases List.mem_filterMap.mp hp with ⟨t, _, ht⟩
  exact reflection_some_props xc crystal _ two_theta_min two_theta_max t p ht

/-- C8: every peak of a successful `calculate` result lies inside the requested
inclusive two-theta range — the range filter is applied to every candidate, and
merging keeps representatives' angles, sorting permutes, and normalization only
rescales intensities. -/
theorem peaks_within_range (xc : XrdCalculator) (crystal : Crystal)
    (two_theta_min two_theta_max : ℝ) (pat : XrdPattern)
    (h : xc.calculate crystal two_theta_min two_theta_max = .ok pat) :
    ∀ p ∈ pat.peaks, two_theta_min ≤ p.two_theta ∧ p.two_theta ≤ two_theta_max := by
  by_cases hw : xc.wavelength ≤ 0
  · rw [XrdCalculator.calculate, if_pos hw] at h
    exact absurd h (by simp)
  rw [XrdCalculator.calculate, if_neg hw] at h
  injection h with hpat
  subst hpat
  intro p hp
  have hcand : ∀ q ∈ candidatePeaks xc crystal two_theta_min two_theta_max,
      two_theta_min ≤ q.two_theta ∧ q.two_theta ≤ two_theta_max :=
    fun q hq => (candidate_props xc crystal two_theta_min two_theta_max q hq).1
  have hmerge := merge_pred
    (fun q => two_theta_min ≤ q.two_theta ∧ q.two_theta ≤ two_theta_max)
    (fun q r hq _ => hq) _ hcand
  exact normalize_pred
    (fun q => two_theta_min ≤ q.two_theta ∧ q.two_theta ≤ two_theta_max)
    (fun q x hq => hq) _ (fun q hq => hmerge q (mem_sortPeaks.mp hq)) p hp

/-- Witness for C8 at a concrete (degenerate) crystal whose computed pattern is
explicit. -/
theorem peaks_within_range_witness :
    XrdCalculator.calculate ⟨1⟩ degenerateCrystal 15 85 = .ok ⟨[], 1, "degenerate"⟩ ∧
      ∀ p ∈ XrdPattern.peaks ⟨[], 1, "degenerate"⟩,
        (15 : ℝ) ≤ p.two_theta ∧ p.two_theta ≤ 85 := by
  have h : XrdCalculator.calculate ⟨1⟩ degenerateCrystal 15 85 = .ok ⟨[], 1, "degenerate"⟩ :=
    calc_degenerate 1 (by norm_num) degenerateCrystal 15 85
      (by simp [degenerateCrystal, zeroMat, Lattice.volume]; norm_num)
  exact ⟨h, peaks_within_range ⟨1⟩ degenerateCrystal 15 85 ⟨[], 1, "degenerate"⟩ h⟩

/-- Invariants of the normalization step on a sorted nonnegative peak list:
all intensities land in [0, 100]; if any final intensity is positive, some peak
has intensity exactly 100; descending order is preserved. -/
theorem normalize_invariants (l : List Peak)
    (hnonneg : ∀ p ∈ l, 0 ≤ p.intensity)
    (hsorted : l.Sorted (fun a b => b.intensity ≤ a.intensity)) :
    (normalizePeaks l).Sorted (fun a b => b.intensity ≤ a.intensity) ∧
      (∀ p ∈ normalizePeaks l, 0 ≤ p.intensity ∧ p.intensity ≤ 100) ∧
      ((∃ p ∈ normalizePeaks l, 0 < p.intensity) →
        ∃ q ∈ normalizePeaks l, q.intensity = 100) := by
  cases l with
  | nil => simp [normalizePeaks]
  | cons p0 rest =>
    have hmax : ∀ p ∈ p0 :: rest, p.intensity ≤ p0.intensity := by
      intro p hp
      rcases List.mem_cons.mp hp with rfl | hp
      · exact le_refl _
      · exact List.rel_of_sorted_cons hsorted p hp
    rw [normalizePeaks]
    simp only [List.head?_cons]
    by_cases hpos : 0 < p0.intensity
    · rw [if_pos hpos]
      refine ⟨?_, ?_, ?_⟩
      · refine List.Pairwise.map _ (fun a b hab => ?_) hsorted
        simp only
        gcongr
      · intro p hp
        rcases List.mem_map.mp hp with ⟨q, hq, rfl⟩
        refine ⟨div_nonneg (mul_nonneg (by norm_num) (hnonneg q hq)) hpos.le, ?_⟩
        simp only
        rw [div_le_iff₀ hpos]
        nlinarith [hmax q hq]
      · intro _
        refine ⟨_, List.mem_map_of_mem _ (List.mem_cons_self p0 rest), ?_⟩
        simp only
        rw [mul_div_assoc, div_self (ne_of_gt hpos), mul_one]
    · rw [if_neg hpos]
      refine ⟨hsorted, ?_, ?_⟩
      · intro p hp
        exact ⟨hnonneg p hp, (hmax p hp).trans (by linarith [not_lt.mp hpos])⟩
      · rintro ⟨p, hp, hppos⟩
        exact absurd hppos (not_lt.mpr ((hmax p hp).trans (not_lt.mp hpos)))

/-- C3, amended: every successful `calculate` result is sorted by intensity
descending and all its intensities lie in [0, 100]; whenever any returned
intensity is positive (equivalently, the pre-normalization maximum was
positive), some peak has intensity exactly 100. When the pre-normalization
maximum is ≤ 0, rescaling is skipped, but the peak list need NOT be empty —
it may consist of peaks of intensity 0 (see the counterexample). -/
theorem calculate_normalization (xc : XrdCalculator) (crystal : Crystal)
    (two_theta_min two_theta_max : ℝ) (pat : XrdPattern)
    (h : xc.calculate crystal two_theta_min two_theta_max = .ok pat) :
    pat.peaks.Sorted (fun a b => b.intensity ≤ a.intensity) ∧
      (∀ p ∈ pat.peaks, 0 ≤ p.intensity ∧ p.intensity ≤ 100) ∧
      ((∃ p ∈ pat.peaks, 0 < p.intensity) → ∃ q ∈ pat.peaks, q.intensity = 100) := by
  by_cases hw : xc.wavelength ≤ 0
  · rw [XrdCalculator.calculate, if_pos hw] at h
    exact absurd h (by simp)
  rw [XrdCalculator.calculate, if_neg hw] at h
  injection h with hpat
  subst hpat
  have hnonneg : ∀ p ∈ sortPeaks (merge_equivalent_peaks
      (candidatePeaks xc crystal two_theta_min two_theta_max)), 0 ≤ p.intensity := by
    intro p hp
    exact merge_pred (fun q => 0 ≤ q.intensity)
      (fun q r hq hr => add_nonneg hq hr) _
      (fun q hq => (candidate_props xc crystal two_theta_min two_theta_max q hq).2)
      p (mem_sortPeaks.mp hp)
  exact normalize_invariants _ hnonneg (sortPeaks_sorted _)

/-- Witness for C3's amended theorem at a concrete (degenerate) crystal whose
computed pattern is explicit. -/
theorem calculate_normalization_witness :
    XrdCalculator.calculate ⟨1⟩ degenerateCrystal 20 80 = .ok ⟨[], 1, "degenerate"⟩ ∧
      (XrdPattern.peaks ⟨[], 1, "degenerate"⟩).Sorted (fun a b => b.intensity ≤ a.intensity) := by
  have h : XrdCalculator.calculate ⟨1⟩ degenerateCrystal 20 80 = .ok ⟨[], 1, "degenerate"⟩ :=
    calc_degenerate 1 (by norm_num) degenerateCrystal 20 80
      (by simp [degenerateCrystal, zeroMat, Lattice.volume]; norm_num)
  exact ⟨h, (calculate_normalization ⟨1⟩ degenerateCrystal 20 80 ⟨[], 1, "degenerate"⟩ h).1⟩

/-! ### Concrete evaluation: unit cubic cell, wavelength 2, range [10, 240]

For the identity lattice (a = 1) and wavelength 2, only the six (h,k,l) with
h^2+k^2+l^2 = 1 survive the |sin theta| filter; they all sit at exactly
2 theta = 180 degrees, where cos(theta) = 0 makes the Lorentz-polarization
factor 0, so the merged pattern is a single peak of intensity 0. -/

/-- A unit cubic crystal (identity lattice) with one Si atom at the origin. -/
noncomputable def siUnit : Crystal :=
  ⟨"si1", ⟨⟨⟨1, 0, 0⟩, ⟨0, 1, 0⟩, ⟨0, 0, 1⟩⟩⟩, [⟨"Si", ⟨0, 0, 0⟩, none⟩],
   none, none, none, none, none, none, none, none⟩

/-- Reciprocal lattice of the identity lattice: 2 pi times the identity. -/
noncomputable def recipSi : Mat3 :=
  ⟨⟨2 * Real.pi, 0, 0⟩, ⟨0, 2 * Real.pi, 0⟩, ⟨0, 0, 2 * Real.pi⟩⟩

theorem recip_siUnit : reciprocal_lattice siUnit.lattice = recipSi := by
  simp only [reciprocal_lattice, siUnit, cross, dot, recipSi]
  rw [if_neg (by norm_num)]
  congr 1 <;> · congr 1 <;> norm_num

theorem params_siUnit_a : (siUnit.lattice.parameters).a = 1 := by
  simp [Lattice.parameters, siUnit]

theorem params_siUnit_b : (siUnit.lattice.parameters).b = 1 := by
  simp [Lattice.parameters, siUnit]

theorem params_siUnit_c : (siUnit.lattice.parameters).c = 1 := by
  simp [Lattice.parameters, siUnit]

theorem sqrt_three_lt_two : Real.sqrt 3 < 2 :=
  (Real.sqrt_lt' (by norm_num)).mpr (by norm_num)

theorem bound_siUnit : searchBound ⟨2⟩ siUnit.lattice 240 = 1 := by
  have hsin : Real.sin (toRadians 240 / 2) = Real.sqrt 3 / 2 := by
    rw [show toRadians 240 / 2 = Real.pi - Real.pi / 3 from by rw [toRadians]; ring,
      Real.sin_pi_sub, Real.sin_pi_div_three]
  simp only [searchBound, hsin, params_siUnit_a, params_siUnit_b, params_siUnit_c]
  rw [show 2 * (Real.sqrt 3 / 2) / (⟨2⟩ : XrdCalculator).wavelength * max 1 (max 1 1)
      = Real.sqrt 3 / 2 from by
    show 2 * (Real.sqrt 3 / 2) / (2 : ℝ) * max 1 (max 1 1) = Real.sqrt 3 / 2
    rw [max_self, max_self]
    ring]
  rw [toI32trunc, if_pos (by positivity)]
  rw [show ⌊Real.sqrt 3 / 2⌋ = 0 from
    Int.floor_eq_zero_iff.mpr ⟨by positivity, by nlinarith [sqrt_three_lt_two]⟩]
  norm_num

theorem calculate_g_recipSi (h k l : ℤ) :
    calculate_g recipSi h k l = ⟨2 * Real.pi * h, 2 * Real.pi * k, 2 * Real.pi * l⟩ := by
  simp only [calculate_g, recipSi]
  congr 1 <;> ring

theorem gmag_si (h k l : ℤ) :
    Real.sqrt ((2 * Real.pi * h) * (2 * Real.pi * h) + (2 * Real.pi * k) * (2 * Real.pi * k)
        + (2 * Real.pi * l) * (2 * Real.pi * l))
      = 2 * Real.pi * Real.sqrt ((h : ℝ) ^ 2 + (k : ℝ) ^ 2 + (l : ℝ) ^ 2) := by
  rw [show (2 * Real.pi * h) * (2 * Real.pi * h) + (2 * Real.pi * k) * (2 * Real.pi * k)
        + (2 * Real.pi * l) * (2 * Real.pi * l)
      = (2 * Real.pi) ^ 2 * ((h : ℝ) ^ 2 + (k : ℝ) ^ 2 + (l : ℝ) ^ 2) from by ring]
  rw [Real.sqrt_mul (by positivity), Real.sqrt_sq (by positivity)]

theorem reflection_si_n2 (h k l : ℤ) (hn : 2 ≤ (h : ℝ) ^ 2 + (k : ℝ) ^ 2 + (l : ℝ) ^ 2) :
    reflection ⟨2⟩ siUnit recipSi 10 240 (h, k, l) = none := by
  have hπ := Real.pi_pos
  have hs2 : 1 < Real.sqrt ((h : ℝ) ^ 2 + (k : ℝ) ^ 2 + (l : ℝ) ^ 2) := by
    have h1 : (1 : ℝ) < Real.sqrt 2 := by
      rw [show (1 : ℝ) = Real.sqrt 1 from Real.sqrt_one.symm]
      exact Real.sqrt_lt_sqrt (by norm_num) (by norm_num)
    exact lt_of_lt_of_le h1 (Real.sqrt_le_sqrt hn)
  have hs0 : (0 : ℝ) < Real.sqrt ((h : ℝ) ^ 2 + (k : ℝ) ^ 2 + (l : ℝ) ^ 2) :=
    lt_trans one_pos hs2
  simp only [reflection, calculate_g_recipSi]
  rw [gmag_si]
  rw [if_neg (by
    have h3 := Real.pi_gt_three
    have : (6 : ℝ) < 2 * Real.pi * Real.sqrt ((h : ℝ) ^ 2 + (k : ℝ) ^ 2 + (l : ℝ) ^ 2) := by
      nlinarith
    norm_num
    linarith)]
  rw [if_pos (by
    rw [show (⟨2⟩ : XrdCalculator).wavelength
          / (2 * (2 * Real.pi / (2 * Real.pi * Real.sqrt ((h : ℝ) ^ 2 + (k : ℝ) ^ 2 + (l : ℝ) ^ 2))))
        = Real.sqrt ((h : ℝ) ^ 2 + (k : ℝ) ^ 2 + (l : ℝ) ^ 2) from by
      show (2 : ℝ) / (2 * (2 * Real.pi / (2 * Real.pi
          * Real.sqrt ((h : ℝ) ^ 2 + (k : ℝ) ^ 2 + (l : ℝ) ^ 2))))
        = Real.sqrt ((h : ℝ) ^ 2 + (k : ℝ) ^ 2 + (l : ℝ) ^ 2)
      field_simp
      ring]
    rw [abs_of_pos hs0]
    exact hs2)]

theorem siP_half_ge_one : 1 ≤ calculate_scattering_factor "Si" (1 / 2) := by
  have hsi : get_scattering_factor "Si"
      = some ⟨6.2915, 3.0353, 1.9891, 1.5410, 2.4386, 32.3337, 0.6785, 81.6937, 1.1407⟩ := rfl
  rw [calculate_scattering_factor, hsi]
  simp only [ScatteringFactorParams.calculate]
  have e0 := Real.exp_pos (-(2.4386 : ℝ) * (1 / 2 * (1 / 2)))
  have e1 := Real.exp_pos (-(32.3337 : ℝ) * (1 / 2 * (1 / 2)))
  have e2 := Real.exp_pos (-(0.6785 : ℝ) * (1 / 2 * (1 / 2)))
  have e3 := Real.exp_pos (-(81.6937 : ℝ) * (1 / 2 * (1 / 2)))
  nlinarith

theorem sf_siUnit (g : Vec3) :
    calculate_structure_factor ⟨2⟩ siUnit g 1
      = (calculate_scattering_factor "Si" (1 / 2), 0) := by
  simp only [calculate_structure_factor, siUnit, List.foldl_cons, List.foldl_nil,
    frac_to_cart, dot]
  norm_num

theorem reflection_si_n1 (h k l : ℤ) (hn : (h : ℝ) ^ 2 + (k : ℝ) ^ 2 + (l : ℝ) ^ 2 = 1) :
    reflection ⟨2⟩ siUnit recipSi 10 240 (h, k, l) = some ⟨180, 1, 0, h, k, l⟩ := by
  have hπ := Real.pi_pos
  simp only [reflection, calculate_g_recipSi]
  rw [gmag_si, hn, Real.sqrt_one, mul_one]
  rw [if_neg (by
    have h3 := Real.pi_gt_three
    norm_num
    linarith)]
  rw [show 2 * Real.pi / (2 * Real.pi) = 1 from div_self (by positivity)]
  rw [show (⟨2⟩ : XrdCalculator).wavelength / (2 * 1) = 1 from by
    show (2 : ℝ) / (2 * 1) = 1
    norm_num]
  rw [if_neg (by norm_num)]
  rw [Real.arcsin_one]
  rw [show 2 * toDegrees (Real.pi / 2) = 180 from by
    rw [toDegrees]
    field_simp
    ring]
  rw [if_neg (by norm_num)]
  rw [sf_siUnit]
  rw [if_neg (by nlinarith [siP_half_ge_one])]
  rw [show lorentz_polarization (Real.pi / 2) = 0 from by
    rw [lorentz_polarization]
    simp [Real.sin_pi_div_two, Real.cos_pi_div_two]]
  norm_num

theorem hklTriples_one :
    hklTriples 1 =
      [(-1, -1, -1), (-1, -1, 0), (-1, -1, 1), (-1, 0, -1), (-1, 0, 0), (-1, 0, 1),
       (-1, 1, -1), (-1, 1, 0), (-1, 1, 1), (0, -1, -1), (0, -1, 0), (0, -1, 1),
       (0, 0, -1), (0, 0, 1), (0, 1, -1), (0, 1, 0), (0, 1, 1), (1, -1, -1),
       (1, -1, 0), (1, -1, 1), (1, 0, -1), (1, 0, 0), (1, 0, 1), (1, 1, -1),
       (1, 1, 0), (1, 1, 1)] := by
  rfl

theorem cand_siUnit :
    candidatePeaks ⟨2⟩ siUnit 10 240 =
      [⟨180, 1, 0, -1, 0, 0⟩, ⟨180, 1, 0, 0, -1, 0⟩, ⟨180, 1, 0, 0, 0, -1⟩,
       ⟨180, 1, 0, 0, 0, 1⟩, ⟨180, 1, 0, 0, 1, 0⟩, ⟨180, 1, 0, 1, 0, 0⟩] := by
  rw [candidatePeaks, recip_siUnit, bound_siUnit, hklTriples_one]
  rw [List.filterMap_cons_none (reflection_si_n2 (-1) (-1) (-1) (by norm_num)),
    List.filterMap_cons_none (reflection_si_n2 (-1) (-1) 0 (by norm_num)),
    List.filterMap_cons_none (reflection_si_n2 (-1) (-1) 1 (by norm_num)),
    List.filterMap_cons_none (reflection_si_n2 (-1) 0 (-1) (by norm_num)),
    List.filterMap_cons_some (reflection_si_n1 (-1) 0 0 (by norm_num)),
    List.filterMap_cons_none (reflection_si_n2 (-1) 0 1 (by norm_num)),
    List.filterMap_cons_none (reflection_si_n2 (-1) 1 (-1) (by norm_num)),
    List.filterMap_cons_none (reflection_si_n2 (-1) 1 0 (by norm_num)),
    List.filterMap_cons_none (reflection_si_n2 (-1) 1 1 (by norm_num)),
    List.filterMap_cons_none (reflection_si_n2 0 (-1) (-1) (by norm_num)),
    List.filterMap_cons_some (reflection_si_n1 0 (-1) 0 (by norm_num)),
    List.filterMap_cons_none (reflection_si_n2 0 (-1) 1 (by norm_num)),
    List.filterMap_cons_some (reflection_si_n1 0 0 (-1) (by norm_num)),
    List.filterMap_cons_some (reflection_si_n1 0 0 1 (by norm_num)),
    List.filterMap_cons_none (reflection_si_n2 0 1 (-1) (by norm_num)),
    List.filterMap_cons_some (reflection_si_n1 0 1 0 (by norm_num)),
    List.filterMap_cons_none (reflection_si_n2 0 1 1 (by norm_num)),
    List.filterMap_cons_none (reflection_si_n2 1 (-1) (-1) (by norm_num)),
    List.filterMap_cons_none (reflection_si_n2 1 (-1) 0 (by norm_num)),
    List.filterMap_cons_none (reflection_si_n2 1 (-1) 1 (by norm_num)),
    List.filterMap_cons_none (reflection_si_n2 1 0 (-1) (by norm_num)),
    List.filterMap_cons_some (reflection_si_n1 1 0 0 (by norm_num)),
    List.filterMap_cons_none (reflection_si_n2 1 0 1 (by norm_num)),
    List.filterMap_cons_none (reflection_si_n2 1 1 (-1) (by norm_num)),
    List.filterMap_cons_none (reflection_si_n2 1 1 0 (by norm_num)),
    List.filterMap_cons_none (reflection_si_n2 1 1 1 (by norm_num)),
    List.filterMap_nil]

theorem merged_siUnit :
    merge_equivalent_peaks
      [⟨180, 1, 0, -1, 0, 0⟩, ⟨180, 1, 0, 0, -1, 0⟩, ⟨180, 1, 0, 0, 0, -1⟩,
       ⟨180, 1, 0, 0, 0, 1⟩, ⟨180, 1, 0, 0, 1, 0⟩, ⟨180, 1, 0, 1, 0, 0⟩]
      = [⟨180, 1, 0, -1, 0, 0⟩] := by
  norm_num [merge_equivalent_peaks, addPeak]

theorem calc_si_eval :
    XrdCalculator.calculate ⟨2⟩ siUnit 10 240
      = .ok ⟨[⟨180, 1, 0, -1, 0, 0⟩], 2, "si1"⟩ := by
  rw [XrdCalculator.calculate, if_neg (show ¬(⟨2⟩ : XrdCalculator).wavelength ≤ 0 by norm_num)]
  rw [cand_siUnit, merged_siUnit, sortPeaks, List.mergeSort_singleton]
  rw [normalizePeaks]
  norm_num [siUnit]

/-- C3, counterexample: at the unit cubic Si crystal with wavelength 2 over
[10, 240] degrees, `calculate` succeeds with a NON-empty peak list whose only
peak has intensity 0 (the Lorentz-polarization factor vanishes at
2 theta = 180), so the unnormalized maximum was ≤ 0, yet the list is not empty
and no peak has intensity 100 — refuting the claim's "empty by construction"
carve-out (and its "some peak equals 100" reading) at a concrete input. -/
theorem normalization_claim_false :
    XrdCalculator.calculate ⟨2⟩ siUnit 10 240
        = .ok ⟨[⟨180, 1, 0, -1, 0, 0⟩], 2, "si1"⟩ ∧
      ([⟨180, 1, 0, -1, 0, 0⟩] : List Peak) ≠ [] ∧
      (∀ q ∈ ([⟨180, 1, 0, -1, 0, 0⟩] : List Peak), q.intensity ≤ 0 ∧ q.intensity ≠ 100) := by
  refine ⟨calc_si_eval, by simp, ?_⟩
  intro q hq
  simp only [List.mem_singleton] at hq
  subst hq
  norm_num

end Qutility
